import Mathlib

/-!
# Educational video platform: approval workflow and access control

Shallow embedding of `main.py` of the Educational-App repository: the data
model (users, lessons, videos), the role-gated dependencies, the upload
coordinator, the admin moderation endpoints, the lesson deletion and the
startup migration.  External collaborators (the relational store, the media
host) are embedded as explicit state (`DB`) and as function parameters whose
outcomes the handlers branch on, exactly where the Python code branches.
-/

/-- `UserRole` enum of `main.py`. -/
inductive UserRole where
  | student : UserRole
  | teacher : UserRole
  | admin : UserRole
deriving DecidableEq, Repr

/-- `VideoStatus` enum of `main.py`. -/
inductive VideoStatus where
  | pending : VideoStatus
  | approved : VideoStatus
  | rejected : VideoStatus
deriving DecidableEq, Repr

/-- `users` table row (`User` model of `main.py`). -/
structure User where
  id : Nat
  username : String
  hashed_password : String
  role : UserRole
deriving DecidableEq, Repr

/-- `lessons` table row (`Lesson` model of `main.py`). -/
structure Lesson where
  id : Nat
  title : String
  category : String
deriving DecidableEq, Repr

/-- `videos` table row (`Video` model of `main.py`).  `public_id` is the
deletion handle at the media host; `none` models SQL NULL. -/
structure Video where
  id : Nat
  video_url : String
  language : String
  public_id : Option String
  lesson_id : Nat
  approval_status : VideoStatus
deriving DecidableEq, Repr

/-- The committed state of the relational store. -/
structure DB where
  lessons : List Lesson
  videos : List Video
  users : List User
deriving DecidableEq, Repr

/-- An `HTTPException` raised by a handler or dependency: status code and
detail message. -/
structure HttpError where
  code : Nat
  detail : String
deriving DecidableEq, Repr

/-- Python truthiness of an optional string column (`if video.public_id:`):
false for NULL and for the empty string. -/
def truthyStr : Option String → Bool
  | none => false
  | some s => ¬ s = ""

/-- Dependency `get_current_admin_user`: 403 when the request is anonymous or
the resolved user's role is not `admin`. -/
def get_current_admin_user (u : Option User) : Except HttpError User :=
  match u with
  | none =>
      .error ⟨403, "You do not have permission to access this page. Admin access required."⟩
  | some user =>
      if user.role = UserRole.admin then .ok user
      else .error ⟨403, "You do not have permission to access this page. Admin access required."⟩

/-- Dependency `get_current_teacher_or_admin_user`: 403 unless the resolved
user's role is `teacher` or `admin`. -/
def get_current_teacher_or_admin_user (u : Option User) : Except HttpError User :=
  match u with
  | none => .error ⟨403, "You must be a teacher or admin to upload videos."⟩
  | some user =>
      if user.role = UserRole.admin ∨ user.role = UserRole.teacher then .ok user
      else .error ⟨403, "You must be a teacher or admin to upload videos."⟩

/-- The MIME allow-list of `validate_file_type`. -/
def allowed_types : List String := ["video/mp4", "video/webm", "video/quicktime"]

/-- The per-file ceiling passed to `validate_file_size` in the upload handler
(100 MB), and the middleware limit installed by `app.add_middleware`. -/
def size_limit : Nat := 100 * 1024 * 1024

/-- An uploaded file: declared content type and payload bytes. -/
structure UploadFile where
  content_type : String
  content : List Nat
deriving DecidableEq, Repr

/- ### Listing queries -/

/-- The SQL join of `lessons` with `videos` on `videos.lesson_id = lessons.id`:
one row per (lesson, video) pair. -/
def joinLessonVideo (db : DB) : List (Lesson × Video) :=
  db.lessons.flatMap fun l =>
    (db.videos.filter fun v => decide (v.lesson_id = l.id)).map fun v => (l, v)

/-- Whether the optional `lang` query parameter filters the index query:
`if lang and lang != "All"`. -/
def langFilterActive : Option String → Bool
  | none => false
  | some s => ¬ s = "" ∧ ¬ s = "All"

/-- The rows matched by the index page's query
`db.query(Lesson).join(Video).filter(Video.approval_status == approved)`,
with the optional language filter applied. -/
def indexRows (db : DB) (lang : Option String) : List (Lesson × Video) :=
  (joinLessonVideo db).filter fun p =>
    decide (p.2.approval_status = VideoStatus.approved) &&
      (if langFilterActive lang then
        match lang with
        | some s => decide (p.2.language = s)
        | none => true
      else true)

/-- What the `index` route returns: a redirect to the login page for an
anonymous request, otherwise the rows of the approved-only query. -/
def index (db : DB) (user : Option User) (lang : Option String) :
    Except String (List (Lesson × Video)) :=
  match user with
  | none => .error "redirect:/login"
  | some _ => .ok (indexRows db lang)

/-- The `/api/admin/pending-videos` route: admin-gated, returns the rows of
`db.query(Video).join(Lesson).filter(Video.approval_status == pending)`. -/
def get_pending_videos (db : DB) (user : Option User) :
    Except HttpError (List (Lesson × Video)) :=
  match get_current_admin_user user with
  | .error e => .error e
  | .ok _ =>
      .ok ((joinLessonVideo db).filter fun p =>
        decide (p.2.approval_status = VideoStatus.pending))

/- ### Status update -/

/-- Mutate the first video whose `id` matches (the handler loads the row with
`.filter(Video.id == video_id).first()` and assigns `approval_status`). -/
def updateFirst : List Video → Nat → VideoStatus → List Video
  | [], _, _ => []
  | v :: vs, i, st =>
      if v.id = i then { v with approval_status := st } :: vs
      else v :: updateFirst vs i st

/-- Render of `VideoStatus` as in the success message. -/
def VideoStatus.value : VideoStatus → String
  | .pending => "pending"
  | .approved => "approved"
  | .rejected => "rejected"

/-- The `PATCH /api/admin/videos/{video_id}/status` handler
`update_video_status`: admin-gated; 404 when the id is absent; otherwise
assigns the new status to that row and commits. -/
def update_video_status (db : DB) (user : Option User) (video_id : Nat)
    (st : VideoStatus) : Except HttpError String × DB :=
  match get_current_admin_user user with
  | .error e => (.error e, db)
  | .ok _ =>
      match db.videos.find? (fun v => decide (v.id = video_id)) with
      | none => (.error ⟨404, "Video not found"⟩, db)
      | some _ =>
          (.ok ("Video status updated to " ++ st.value),
           { db with videos := updateFirst db.videos video_id st })

/-- Agreement of every Video column except `approval_status`: used to state
that the status update touches nothing else. -/
def videoMetaEq (x y : Video) : Prop :=
  y.id = x.id ∧ y.video_url = x.video_url ∧ y.language = x.language ∧
  y.public_id = x.public_id ∧ y.lesson_id = x.lesson_id

/- ### Upload coordinator -/

/-- The dictionary returned by the media host's upload call; `.get` on a
missing key yields `none`. -/
structure CloudinaryResult where
  secure_url : Option String
  public_id : Option String
deriving DecidableEq, Repr

/-- Outcome of the upload handler as seen by the client. -/
inductive UploadOutcome where
  | redirect : UploadOutcome
  | successPage : UploadOutcome
  | errorPage (msg : String) : UploadOutcome
  | httpError (e : HttpError) : UploadOutcome
deriving DecidableEq, Repr

/-- `lesson = db.query(Lesson).filter(Lesson.title == title).first()`. -/
def findLessonByTitle (db : DB) (title : String) : Option Lesson :=
  db.lessons.find? fun l => decide (l.title = title)

/-- Resolve or create the owning lesson: when no lesson carries the title, a
fresh row `Lesson(title=title, category=category)` is added and committed at
once (`db.add`, `db.commit`, `db.refresh`). -/
def resolveLesson (db : DB) (title category : String) (freshLessonId : Nat) :
    Lesson × DB :=
  match findLessonByTitle db title with
  | some l => (l, db)
  | none =>
      let l : Lesson := ⟨freshLessonId, title, category⟩
      (l, { db with lessons := db.lessons ++ [l] })

/-- The `POST /upload` handler `handle_video_upload`.  `host` is the outcome
of the `cloudinary.uploader.upload` call: `.error` models the call raising,
`.ok` its returned dictionary.  `freshLessonId` / `freshVideoId` are the
primary keys the store would assign to newly inserted rows.  Returns the
response and the committed store state. -/
def handle_video_upload (db : DB) (user : Option User)
    (title category language : String) (file : UploadFile)
    (host : Except String CloudinaryResult)
    (freshLessonId freshVideoId : Nat) : UploadOutcome × DB :=
  match get_current_teacher_or_admin_user user with
  | .error e => (.httpError e, db)
  | .ok u =>
      if ¬ allowed_types.contains file.content_type then
        (.httpError ⟨400, "Invalid file type. Allowed: video/mp4, video/webm, video/quicktime"⟩,
         db)
      else if size_limit < file.content.length then
        (.httpError ⟨413, "File too large. Max size: 100MB"⟩, db)
      else
        let resolved := resolveLesson db title category freshLessonId
        let lesson := resolved.1
        let db1 := resolved.2
        if file.content.length = 0 then
          (.httpError ⟨400, "Empty file uploaded"⟩, db1)
        else
          match host with
          | .error msg => (.errorPage ("Upload failed: " ++ msg), db1)
          | .ok res =>
              if truthyStr res.secure_url ∧ truthyStr res.public_id then
                let v : Video :=
                  { id := freshVideoId
                    video_url := res.secure_url.getD ""
                    language := language
                    public_id := res.public_id
                    lesson_id := lesson.id
                    approval_status := VideoStatus.pending }
                let db2 := { db1 with videos := db1.videos ++ [v] }
                (if u.role = UserRole.teacher then .successPage else .redirect, db2)
              else
                (.errorPage "Upload failed: Failed to get URL or public_id from Cloudinary",
                 db1)

/-- A `POST /upload` request as it enters the application:
`FileSizeLimitMiddleware` rejects a multipart POST whose declared
`Content-Length` header exceeds the installed limit with a 413 response
before the route handler runs; otherwise the handler runs. -/
def uploadRequest (db : DB) (user : Option User)
    (title category language : String) (file : UploadFile)
    (contentLength : Option Nat)
    (host : Except String CloudinaryResult)
    (freshLessonId freshVideoId : Nat) : UploadOutcome × DB :=
  match contentLength with
  | some n =>
      if size_limit < n then
        (.httpError ⟨413, "File too large. Maximum size allowed: 100MB"⟩, db)
      else
        handle_video_upload db user title category language file host
          freshLessonId freshVideoId
  | none =>
      handle_video_upload db user title category language file host
        freshLessonId freshVideoId

/- ### Lesson deletion -/

/-- Outcome of one `cloudinary.uploader.destroy` call: `result` is a response
the handler receives and ignores (`ok = false` models the host reporting a
failure in the response body); `raised` models the call raising. -/
inductive DestroyOutcome where
  | result (ok : Bool) : DestroyOutcome
  | raised (msg : String) : DestroyOutcome
deriving DecidableEq, Repr

/-- The `for video in lesson.videos` destroy loop: calls `destroy` on each
video whose `public_id` is truthy, in order, stopping at the first call that
raises.  Returns the handles on which a call was attempted and the message of
the exception when one was raised. -/
def runDestroys (destroy : String → DestroyOutcome) :
    List Video → List String × Option String
  | [] => ([], none)
  | v :: vs =>
      match v.public_id with
      | none => runDestroys destroy vs
      | some pid =>
          if pid = "" then runDestroys destroy vs
          else
            match destroy pid with
            | .result _ =>
                let rest := runDestroys destroy vs
                (pid :: rest.1, rest.2)
            | .raised m => ([pid], some m)

/-- Remove the row `db.delete(lesson_to_delete)` deletes. -/
def removeFirstLesson : List Lesson → Nat → List Lesson
  | [], _ => []
  | l :: ls, i => if l.id = i then ls else l :: removeFirstLesson ls i

/-- The `POST /lesson/{lesson_id}/delete` handler `delete_lesson`: admin-gated;
404 when the id is absent; runs the destroy loop, and only if no call raised
deletes the lesson row with its videos (cascade) and commits; an exception in
the loop rolls back and returns a 500.  The third component records the
external deletion attempts. -/
def delete_lesson (db : DB) (user : Option User) (lesson_id : Nat)
    (destroy : String → DestroyOutcome) :
    Except HttpError Unit × DB × List String :=
  match get_current_admin_user user with
  | .error e => (.error e, db, [])
  | .ok _ =>
      match db.lessons.find? (fun l => decide (l.id = lesson_id)) with
      | none => (.error ⟨404, "Lesson not found"⟩, db, [])
      | some lesson =>
          let lessonVideos := db.videos.filter fun v => decide (v.lesson_id = lesson.id)
          match runDestroys destroy lessonVideos with
          | (calls, some m) =>
              (.error ⟨500, "Failed to delete lesson: " ++ m⟩, db, calls)
          | (calls, none) =>
              (.ok (),
               { db with
                  lessons := removeFirstLesson db.lessons lesson_id
                  videos := db.videos.filter fun v => decide (¬ v.lesson_id = lesson.id) },
               calls)

/- ### Startup migration -/

/-- One row of the `videos` table in an installation created before the
approval workflow existed: the `approval_status` column is absent. -/
structure LegacyVideoRow where
  id : Nat
  video_url : String
  language : String
  public_id : Option String
  lesson_id : Nat
deriving DecidableEq, Repr

/-- A row after the column was added; the column is TEXT, `none` is NULL. -/
structure MigratedVideoRow where
  id : Nat
  video_url : String
  language : String
  public_id : Option String
  lesson_id : Nat
  approval_status : Option String
deriving DecidableEq, Repr

/-- `ALTER TABLE videos ADD COLUMN approval_status TEXT DEFAULT 'pending'`
under SQLite semantics: pre-existing rows read back the declared default
value `'pending'`, not NULL. -/
def alterAddApprovalStatus (rows : List LegacyVideoRow) : List MigratedVideoRow :=
  rows.map fun r =>
    { id := r.id, video_url := r.video_url, language := r.language
      public_id := r.public_id, lesson_id := r.lesson_id
      approval_status := some "pending" }

/-- `UPDATE videos SET approval_status = 'approved'
WHERE approval_status IS NULL OR approval_status = ''`. -/
def backfillApproved (rows : List MigratedVideoRow) : List MigratedVideoRow :=
  rows.map fun r =>
    if r.approval_status = none ∨ r.approval_status = some "" then
      { r with approval_status := some "approved" }
    else r

/-- The migration branch of `initialize_database` on an installation whose
`videos` table lacks the column: the ALTER followed by the backfill UPDATE,
then commit. -/
def migrateVideosTable (rows : List LegacyVideoRow) : List MigratedVideoRow :=
  backfillApproved (alterAddApprovalStatus rows)

/- ### Concrete fixtures used by witnesses and counterexamples -/

/-- A provisioned admin account. -/
def adminUser : User := ⟨1, "alice", "h1", UserRole.admin⟩

/-- A provisioned teacher account. -/
def teacherUser : User := ⟨2, "bob", "h2", UserRole.teacher⟩

/-- A self-registered student account. -/
def studentUser : User := ⟨3, "carol", "h3", UserRole.student⟩

/-- A lesson with one approved and one pending video. -/
def lessonAlgebra : Lesson := ⟨1, "Algebra", "Math"⟩

def videoApproved : Video :=
  ⟨1, "https://v/1", "English", some "pub1", 1, VideoStatus.approved⟩

def videoPending : Video :=
  ⟨2, "https://v/2", "English", some "pub2", 1, VideoStatus.pending⟩

def sampleDB : DB :=
  ⟨[lessonAlgebra], [videoApproved, videoPending], [adminUser, teacherUser, studentUser]⟩

/-- A small mp4 upload. -/
def goodFile : UploadFile := ⟨"video/mp4", [1, 2, 3]⟩

/-- An upload with a declared content type outside the allow-list. -/
def textFile : UploadFile := ⟨"text/plain", [1, 2, 3]⟩

/-- A media host that accepts the upload and returns both fields. -/
def okHost : Except String CloudinaryResult := .ok ⟨some "https://cdn/u", some "pubX"⟩

/-- A media host whose upload call raises. -/
def downHost : Except String CloudinaryResult := .error "connection refused"

/-- A destroy stub whose every call raises. -/
def raisingDestroy : String → DestroyOutcome := fun _ => .raised "network error"

/-- A destroy stub whose every call returns an error response without
raising: the host reports the deletion failed. -/
def errorResultDestroy : String → DestroyOutcome := fun _ => .result false

/-- A pre-existing video row of an installation that predates the approval
workflow. -/
def legacyRow : LegacyVideoRow := ⟨7, "https://v/legacy", "English", some "pubL", 3⟩

/- ### Helper lemmas -/

theorem get_current_admin_user_of_admin (u : User) (h : u.role = UserRole.admin) :
    get_current_admin_user (some u) = .ok u := by
  simp [get_current_admin_user, h]

theorem get_current_admin_user_not_admin (u : User) (h : ¬ u.role = UserRole.admin) :
    get_current_admin_user (some u) =
      .error ⟨403, "You do not have permission to access this page. Admin access required."⟩ := by
  simp [get_current_admin_user, h]

/- ### C1 -/

/-- C1: a listing request by an authenticated non-admin returns only rows
whose video has `approval_status = approved`, and an admin pending-list
request returns only rows whose video has `approval_status = pending`. -/
theorem listing_respects_approval (db : DB) (u : User)
    (hu : ¬ u.role = UserRole.admin) (lang : Option String)
    (a : User) (ha : a.role = UserRole.admin) :
    (∃ rows, index db (some u) lang = .ok rows ∧
      ∀ p ∈ rows, (Prod.snd p).approval_status = VideoStatus.approved) ∧
    (∃ rows, get_pending_videos db (some a) = .ok rows ∧
      ∀ p ∈ rows, (Prod.snd p).approval_status = VideoStatus.pending) := by
  constructor
  · refine ⟨indexRows db lang, rfl, ?_⟩
    intro p hp
    have h2 := (List.mem_filter.mp hp).2
    rw [Bool.and_eq_true] at h2
    exact of_decide_eq_true h2.1
  · refine ⟨(joinLessonVideo db).filter
      (fun p => decide ((Prod.snd p).approval_status = VideoStatus.pending)), ?_, ?_⟩
    · simp [get_pending_videos, get_current_admin_user_of_admin a ha]
    · intro p hp
      exact of_decide_eq_true (List.mem_filter.mp hp).2

/-- Witness for C1 on the sample store: the student's listing and the
admin's pending list. -/
theorem listing_respects_approval_witness :
    (∃ rows, index sampleDB (some studentUser) (some "English") = .ok rows ∧
      ∀ p ∈ rows, (Prod.snd p).approval_status = VideoStatus.approved) ∧
    (∃ rows, get_pending_videos sampleDB (some adminUser) = .ok rows ∧
      ∀ p ∈ rows, (Prod.snd p).approval_status = VideoStatus.pending) :=
  listing_respects_approval sampleDB studentUser (by decide) (some "English")
    adminUser (by decide)

theorem resolveLesson_videos (db : DB) (t c : String) (fl : Nat) :
    (resolveLesson db t c fl).2.videos = db.videos := by
  cases hf : findLessonByTitle db t <;> simp [resolveLesson, hf]

theorem resolveLesson_users (db : DB) (t c : String) (fl : Nat) :
    (resolveLesson db t c fl).2.users = db.users := by
  cases hf : findLessonByTitle db t <;> simp [resolveLesson, hf]

/-- Shape of the store after a successful upload: the resolved lesson state
plus exactly one new video row, created at `pending`. -/
theorem upload_success_shape (db : DB) (user : Option User) (t c lg : String)
    (f : UploadFile) (host : Except String CloudinaryResult) (fl fv : Nat)
    (out : UploadOutcome) (db' : DB)
    (heq : handle_video_upload db user t c lg f host fl fv = (out, db'))
    (hsucc : out = UploadOutcome.redirect ∨ out = UploadOutcome.successPage) :
    ∃ res : CloudinaryResult, host = .ok res ∧
      truthyStr res.secure_url = true ∧ truthyStr res.public_id = true ∧
      db' = { lessons := (resolveLesson db t c fl).2.lessons
              videos := db.videos ++
                [{ id := fv
                   video_url := res.secure_url.getD ""
                   language := lg
                   public_id := res.public_id
                   lesson_id := (resolveLesson db t c fl).1.id
                   approval_status := VideoStatus.pending }]
              users := db.users } := by
  simp only [handle_video_upload] at heq
  split at heq
  · rw [Prod.mk.injEq] at heq
    obtain ⟨h1, h2⟩ := heq
    subst h1
    simp at hsucc
  · split at heq
    · rw [Prod.mk.injEq] at heq
      obtain ⟨h1, h2⟩ := heq
      subst h1
      simp at hsucc
    · split at heq
      · rw [Prod.mk.injEq] at heq
        obtain ⟨h1, h2⟩ := heq
        subst h1
        simp at hsucc
      · split at heq
        · rw [Prod.mk.injEq] at heq
          obtain ⟨h1, h2⟩ := heq
          subst h1
          simp at hsucc
        · split at heq
          · rw [Prod.mk.injEq] at heq
            obtain ⟨h1, h2⟩ := heq
            subst h1
            simp at hsucc
          · next res =>
            split at heq
            · next htr =>
              rw [Prod.mk.injEq] at heq
              obtain ⟨h1, h2⟩ := heq
              subst h2
              refine ⟨res, rfl, of_decide_eq_true ?_, of_decide_eq_true ?_, ?_⟩
              · exact decide_eq_true htr.1
              · exact decide_eq_true htr.2
              · simp [resolveLesson_videos, resolveLesson_users]
            · rw [Prod.mk.injEq] at heq
              obtain ⟨h1, h2⟩ := heq
              subst h1
              simp at hsucc

/- ### C2 -/

/-- C2: every successful upload creates exactly one new Video row and its
`approval_status` is `pending` immediately after creation, regardless of
whether the uploader that passed the teacher-or-admin gate was a teacher or
an admin. -/
theorem upload_creates_pending_video (db : DB) (user : Option User)
    (t c lg : String) (f : UploadFile) (host : Except String CloudinaryResult)
    (fl fv : Nat) (out : UploadOutcome) (db' : DB)
    (heq : handle_video_upload db user t c lg f host fl fv = (out, db'))
    (hsucc : out = UploadOutcome.redirect ∨ out = UploadOutcome.successPage) :
    ∃ v : Video, db'.videos = db.videos ++ [v] ∧
      v.approval_status = VideoStatus.pending := by
  obtain ⟨res, -, -, -, hdb⟩ :=
    upload_success_shape db user t c lg f host fl fv out db' heq hsucc
  subst hdb
  exact ⟨_, rfl, rfl⟩

/-- Witness for C2: a concrete successful teacher upload. -/
theorem upload_creates_pending_video_witness :
    ∃ v : Video,
      (handle_video_upload sampleDB (some teacherUser) "Geometry" "Math" "English"
          goodFile okHost 5 6).2.videos = sampleDB.videos ++ [v] ∧
      v.approval_status = VideoStatus.pending :=
  upload_creates_pending_video sampleDB (some teacherUser) "Geometry" "Math" "English"
    goodFile okHost 5 6
    (handle_video_upload sampleDB (some teacherUser) "Geometry" "Math" "English"
        goodFile okHost 5 6).1
    (handle_video_upload sampleDB (some teacherUser) "Geometry" "Math" "English"
        goodFile okHost 5 6).2
    rfl (Or.inr (by decide))

/- ### More helpers: lesson resolution -/

theorem resolveLesson_new (db : DB) (t c : String) (fl : Nat)
    (h : findLessonByTitle db t = none) :
    resolveLesson db t c fl =
      (⟨fl, t, c⟩, { db with lessons := db.lessons ++ [⟨fl, t, c⟩] }) := by
  simp [resolveLesson, h]

theorem resolveLesson_found (db : DB) (t c : String) (fl : Nat) (l : Lesson)
    (h : findLessonByTitle db t = some l) :
    resolveLesson db t c fl = (l, db) := by
  simp [resolveLesson, h]

theorem find?_append_none {α : Type} (p : α → Bool) (l1 l2 : List α)
    (h : l1.find? p = none) : (l1 ++ l2).find? p = l2.find? p := by
  induction l1 with
  | nil => simp
  | cons a as ih =>
      cases hpa : p a with
      | true => rw [List.find?_cons_of_pos _ hpa] at h; exact absurd h (by simp)
      | false =>
          have hpa' : ¬ p a = true := by simp [hpa]
          rw [List.find?_cons_of_neg _ hpa'] at h
          rw [List.cons_append, List.find?_cons_of_neg _ hpa']
          exact ih h

theorem teacher_gate_error (u : Option User) (e : HttpError)
    (h : get_current_teacher_or_admin_user u = .error e) :
    e = ⟨403, "You must be a teacher or admin to upload videos."⟩ := by
  cases u with
  | none =>
      simp [get_current_teacher_or_admin_user] at h
      exact h.symm
  | some u0 =>
      by_cases hr : u0.role = UserRole.admin ∨ u0.role = UserRole.teacher <;>
        simp [get_current_teacher_or_admin_user, hr] at h
      exact h.symm

theorem filter_eq_nil_of_forall {α : Type} (p : α → Bool) (l : List α)
    (h : ∀ a ∈ l, p a = false) : l.filter p = [] := by
  induction l with
  | nil => rfl
  | cons a as ih =>
      have ha := h a (by simp)
      rw [List.filter_cons, ha]
      simpa using ih fun x hx => h x (by simp [hx])

/- ### C10 -/

/-- C10: when an upload under a previously unused title fails after the
lesson row was created and committed (empty payload, media-host exception,
or a host response missing the URL or the deletion handle), the committed
store still holds the new lesson row, and that lesson has zero videos: the
failure path's rollback does not remove the already-committed lesson. -/
theorem failed_upload_keeps_new_lesson (db : DB) (user : Option User)
    (t c lg : String) (f : UploadFile) (host : Except String CloudinaryResult)
    (fl fv : Nat) (out : UploadOutcome) (db' : DB)
    (heq : handle_video_upload db user t c lg f host fl fv = (out, db'))
    (hnew : findLessonByTitle db t = none)
    (hfresh : ∀ v ∈ db.videos, decide (v.lesson_id = fl) = false)
    (hfail : out = UploadOutcome.httpError ⟨400, "Empty file uploaded"⟩ ∨
             ∃ m, out = UploadOutcome.errorPage m) :
    db'.lessons = db.lessons ++ [⟨fl, t, c⟩] ∧
    db'.videos.filter (fun v => decide (v.lesson_id = fl)) = [] := by
  have hres := resolveLesson_new db t c fl hnew
  simp only [handle_video_upload] at heq
  split at heq
  · next e hg =>
      rw [Prod.mk.injEq] at heq
      obtain ⟨h1, h2⟩ := heq
      subst h1
      rw [teacher_gate_error user e hg] at hfail
      rcases hfail with hf | ⟨m, hf⟩
      · exact absurd hf (by decide)
      · simp at hf
  · split at heq
    · rw [Prod.mk.injEq] at heq
      obtain ⟨h1, h2⟩ := heq
      subst h1
      rcases hfail with hf | ⟨m, hf⟩
      · exact absurd hf (by decide)
      · simp at hf
    · split at heq
      · rw [Prod.mk.injEq] at heq
        obtain ⟨h1, h2⟩ := heq
        subst h1
        rcases hfail with hf | ⟨m, hf⟩
        · exact absurd hf (by decide)
        · simp at hf
      · split at heq
        · rw [Prod.mk.injEq] at heq
          obtain ⟨h1, h2⟩ := heq
          subst h2
          constructor
          · rw [hres]
          · rw [hres]
            exact filter_eq_nil_of_forall _ _ hfresh
        · split at heq
          · rw [Prod.mk.injEq] at heq
            obtain ⟨h1, h2⟩ := heq
            subst h2
            constructor
            · rw [hres]
            · rw [hres]
              exact filter_eq_nil_of_forall _ _ hfresh
          · split at heq
            · rw [Prod.mk.injEq] at heq
              obtain ⟨h1, h2⟩ := heq
              subst h1
              rcases hfail with hf | ⟨m, hf⟩ <;> split at hf <;> simp at hf
            · rw [Prod.mk.injEq] at heq
              obtain ⟨h1, h2⟩ := heq
              subst h2
              constructor
              · rw [hres]
              · rw [hres]
                exact filter_eq_nil_of_forall _ _ hfresh

/-- Witness for C10: a teacher upload of a valid but empty file under a new
title on the sample store. -/
theorem failed_upload_keeps_new_lesson_witness :
    (handle_video_upload sampleDB (some teacherUser) "Trig" "Math" "English"
        ⟨"video/mp4", []⟩ okHost 9 10).2.lessons =
      sampleDB.lessons ++ [⟨9, "Trig", "Math"⟩] ∧
    (handle_video_upload sampleDB (some teacherUser) "Trig" "Math" "English"
        ⟨"video/mp4", []⟩ okHost 9 10).2.videos.filter
      (fun v => decide (v.lesson_id = 9)) = [] :=
  failed_upload_keeps_new_lesson sampleDB (some teacherUser) "Trig" "Math" "English"
    ⟨"video/mp4", []⟩ okHost 9 10
    (handle_video_upload sampleDB (some teacherUser) "Trig" "Math" "English"
        ⟨"video/mp4", []⟩ okHost 9 10).1
    (handle_video_upload sampleDB (some teacherUser) "Trig" "Math" "English"
        ⟨"video/mp4", []⟩ okHost 9 10).2
    rfl (by decide) (by decide) (Or.inl (by decide))

/- ### C8 -/

/-- C8: two successful uploads under the same previously-unused title: the
first fixes the lesson's category; the second upload's category argument is
ignored — afterwards the store holds exactly one lesson with that title,
carrying the first upload's category. -/
theorem second_upload_category_ignored (db : DB) (u1 u2 : Option User)
    (t c1 c2 lg1 lg2 : String) (f1 f2 : UploadFile)
    (h1 h2 : Except String CloudinaryResult) (fl1 fv1 fl2 fv2 : Nat)
    (out1 out2 : UploadOutcome) (db1 db2 : DB)
    (hnew : findLessonByTitle db t = none)
    (heq1 : handle_video_upload db u1 t c1 lg1 f1 h1 fl1 fv1 = (out1, db1))
    (hs1 : out1 = UploadOutcome.redirect ∨ out1 = UploadOutcome.successPage)
    (heq2 : handle_video_upload db1 u2 t c2 lg2 f2 h2 fl2 fv2 = (out2, db2))
    (hs2 : out2 = UploadOutcome.redirect ∨ out2 = UploadOutcome.successPage) :
    db2.lessons = db.lessons ++ [⟨fl1, t, c1⟩] ∧
    findLessonByTitle db2 t = some ⟨fl1, t, c1⟩ := by
  obtain ⟨res1, -, -, -, hdb1⟩ :=
    upload_success_shape db u1 t c1 lg1 f1 h1 fl1 fv1 out1 db1 heq1 hs1
  have hl1 : db1.lessons = db.lessons ++ [⟨fl1, t, c1⟩] := by
    rw [hdb1, resolveLesson_new db t c1 fl1 hnew]
  have hfind1 : findLessonByTitle db1 t = some ⟨fl1, t, c1⟩ := by
    unfold findLessonByTitle at hnew ⊢
    rw [hl1, find?_append_none _ _ _ hnew]
    simp [List.find?]
  obtain ⟨res2, -, -, -, hdb2⟩ :=
    upload_success_shape db1 u2 t c2 lg2 f2 h2 fl2 fv2 out2 db2 heq2 hs2
  have hl2 : db2.lessons = db1.lessons := by
    rw [hdb2, resolveLesson_found db1 t c2 fl2 _ hfind1]
  refine ⟨hl2.trans hl1, ?_⟩
  unfold findLessonByTitle at hnew hfind1 ⊢
  rw [hl2]
  exact hfind1

/-- Witness for C8: two concrete admin uploads under the fresh title
"Calculus" with categories "Math" then "Science". -/
theorem second_upload_category_ignored_witness :
    ((handle_video_upload
        (handle_video_upload sampleDB (some adminUser) "Calculus" "Math" "English"
            goodFile okHost 11 12).2
        (some adminUser) "Calculus" "Science" "Hindi" goodFile okHost 13 14).2.lessons
      = sampleDB.lessons ++ [⟨11, "Calculus", "Math"⟩]) ∧
    (findLessonByTitle
        (handle_video_upload
          (handle_video_upload sampleDB (some adminUser) "Calculus" "Math" "English"
              goodFile okHost 11 12).2
          (some adminUser) "Calculus" "Science" "Hindi" goodFile okHost 13 14).2
        "Calculus" = some ⟨11, "Calculus", "Math"⟩) :=
  second_upload_category_ignored sampleDB (some adminUser) (some adminUser)
    "Calculus" "Math" "Science" "English" "Hindi" goodFile goodFile okHost okHost
    11 12 13 14
    (handle_video_upload sampleDB (some adminUser) "Calculus" "Math" "English"
        goodFile okHost 11 12).1
    (handle_video_upload
        (handle_video_upload sampleDB (some adminUser) "Calculus" "Math" "English"
            goodFile okHost 11 12).2
        (some adminUser) "Calculus" "Science" "Hindi" goodFile okHost 13 14).1
    (handle_video_upload sampleDB (some adminUser) "Calculus" "Math" "English"
        goodFile okHost 11 12).2
    (handle_video_upload
        (handle_video_upload sampleDB (some adminUser) "Calculus" "Math" "English"
            goodFile okHost 11 12).2
        (some adminUser) "Calculus" "Science" "Hindi" goodFile okHost 13 14).2
    (by decide) rfl (Or.inl (by decide)) rfl (Or.inl (by decide))

/- ### Status-update helpers -/

theorem find?_id_exists (l : List Video) (vid : Nat)
    (hex : ∃ v ∈ l, v.id = vid) :
    ∃ w, l.find? (fun v => decide (v.id = vid)) = some w := by
  obtain ⟨v, hv, hid⟩ := hex
  induction l with
  | nil => simp at hv
  | cons a as ih =>
      by_cases ha : a.id = vid
      · exact ⟨a, List.find?_cons_of_pos _ (by simp [ha])⟩
      · rcases List.mem_cons.mp hv with h | h
        · subst h; exact absurd hid ha
        · obtain ⟨w, hw⟩ := ih h
          exact ⟨w, by rw [List.find?_cons_of_neg _ (by simp [ha])]; exact hw⟩

theorem find?_updateFirst (l : List Video) (vid : Nat) (st : VideoStatus)
    (v : Video) (h : l.find? (fun w => decide (w.id = vid)) = some v) :
    (updateFirst l vid st).find? (fun w => decide (w.id = vid))
      = some { v with approval_status := st } := by
  induction l with
  | nil => simp [List.find?] at h
  | cons a as ih =>
      by_cases ha : a.id = vid
      · rw [List.find?_cons_of_pos _ (by simp [ha])] at h
        injection h with h
        subst h
        unfold updateFirst
        rw [if_pos ha]
        exact List.find?_cons_of_pos _ (by simp [ha])
      · rw [List.find?_cons_of_neg _ (by simp [ha])] at h
        unfold updateFirst
        rw [if_neg ha]
        rw [List.find?_cons_of_neg _ (by simp [ha])]
        exact ih h

theorem updateFirst_length (l : List Video) (i : Nat) (st : VideoStatus) :
    (updateFirst l i st).length = l.length := by
  induction l with
  | nil => rfl
  | cons a as ih =>
      unfold updateFirst
      by_cases ha : a.id = i <;> simp [ha, ih]

theorem zip_same_eq {α : Type} (l : List α) : ∀ p ∈ l.zip l, p.2 = p.1 := by
  induction l with
  | nil => intro p hp; simp at hp
  | cons a as ih =>
      intro p hp
      rw [List.zip_cons_cons] at hp
      rcases List.mem_cons.mp hp with h | h
      · subst h; rfl
      · exact ih p h

theorem updateFirst_zip (l : List Video) (i : Nat) (st : VideoStatus) :
    ∀ p ∈ l.zip (updateFirst l i st),
      videoMetaEq p.1 p.2 ∧ (¬ p.1.id = i → p.2 = p.1) := by
  induction l with
  | nil => intro p hp; simp at hp
  | cons a as ih =>
      unfold updateFirst
      by_cases ha : a.id = i
      · rw [if_pos ha]
        intro p hp
        rw [List.zip_cons_cons] at hp
        rcases List.mem_cons.mp hp with h | h
        · subst h
          exact ⟨⟨rfl, rfl, rfl, rfl, rfl⟩, fun hne => absurd ha hne⟩
        · have hpp := zip_same_eq as p h
          rw [hpp]
          exact ⟨⟨rfl, rfl, rfl, rfl, rfl⟩, fun _ => rfl⟩
      · rw [if_neg ha]
        intro p hp
        rw [List.zip_cons_cons] at hp
        rcases List.mem_cons.mp hp with h | h
        · subst h
          exact ⟨⟨rfl, rfl, rfl, rfl, rfl⟩, fun _ => rfl⟩
        · exact ih p h

/- ### C3 -/

/-- C3: for an existing video, the status-update operation succeeds exactly
when the actor is an authenticated admin; an anonymous actor or one with any
non-admin role receives 403 Forbidden and the store — hence the video's
`approval_status` — is unchanged. -/
theorem update_status_succeeds_iff_admin (db : DB) (actor : Option User)
    (vid : Nat) (st : VideoStatus) (hex : ∃ v ∈ db.videos, v.id = vid) :
    ((∃ m, (update_video_status db actor vid st).1 = .ok m) ↔
      (∃ u, actor = some u ∧ u.role = UserRole.admin)) ∧
    ((¬ ∃ u, actor = some u ∧ u.role = UserRole.admin) →
      (update_video_status db actor vid st).1 =
        .error ⟨403, "You do not have permission to access this page. Admin access required."⟩ ∧
      (update_video_status db actor vid st).2 = db) := by
  obtain ⟨w, hw⟩ := find?_id_exists db.videos vid hex
  cases actor with
  | none =>
      constructor
      · constructor
        · rintro ⟨m, hm⟩
          simp [update_video_status, get_current_admin_user] at hm
        · rintro ⟨u, hu, -⟩
          exact absurd hu (by simp)
      · intro _
        exact ⟨rfl, rfl⟩
  | some u =>
      by_cases hr : u.role = UserRole.admin
      · constructor
        · constructor
          · intro _
            exact ⟨u, rfl, hr⟩
          · intro _
            refine ⟨"Video status updated to " ++ st.value, ?_⟩
            simp [update_video_status, get_current_admin_user, hr, hw]
        · intro hna
          exact absurd ⟨u, rfl, hr⟩ hna
      · have hgate := get_current_admin_user_not_admin u hr
        constructor
        · constructor
          · rintro ⟨m, hm⟩
            simp [update_video_status, hgate] at hm
          · rintro ⟨u', hu', hr'⟩
            injection hu' with h
            subst h
            exact absurd hr' hr
        · intro _
          exact ⟨by simp [update_video_status, hgate], by simp [update_video_status, hgate]⟩

/-- Witness for C3: the student actor against the pending sample video. -/
theorem update_status_succeeds_iff_admin_witness :
    ((∃ m, (update_video_status sampleDB (some studentUser) 2 VideoStatus.approved).1
        = .ok m) ↔
      (∃ u, some studentUser = some u ∧ u.role = UserRole.admin)) ∧
    ((¬ ∃ u, some studentUser = some u ∧ u.role = UserRole.admin) →
      (update_video_status sampleDB (some studentUser) 2 VideoStatus.approved).1 =
        .error ⟨403, "You do not have permission to access this page. Admin access required."⟩ ∧
      (update_video_status sampleDB (some studentUser) 2 VideoStatus.approved).2
        = sampleDB) :=
  update_status_succeeds_iff_admin sampleDB (some studentUser) 2 VideoStatus.approved
    ⟨videoPending, by decide, by decide⟩

/- ### C7 -/

/-- C7: for any existing video in any source state, an admin update to any
target state (equal or not) succeeds, and afterwards the video carries
exactly the target state: no transition of the three-state graph is
restricted. -/
theorem admin_transition_graph_complete (db : DB) (u : User)
    (hu : u.role = UserRole.admin) (vid : Nat) (v : Video)
    (hfind : db.videos.find? (fun w => decide (w.id = vid)) = some v)
    (st : VideoStatus) :
    (update_video_status db (some u) vid st).1 =
      .ok ("Video status updated to " ++ st.value) ∧
    (update_video_status db (some u) vid st).2.videos.find?
        (fun w => decide (w.id = vid)) = some { v with approval_status := st } := by
  constructor
  · simp [update_video_status, get_current_admin_user, hu, hfind]
  · simp only [update_video_status, get_current_admin_user, hu, if_pos, hfind]
    exact find?_updateFirst db.videos vid st v hfind

/-- Witness for C7: the admin re-opens the approved sample video back to
pending. -/
theorem admin_transition_graph_complete_witness :
    (update_video_status sampleDB (some adminUser) 1 VideoStatus.pending).1 =
      .ok ("Video status updated to " ++ VideoStatus.pending.value) ∧
    (update_video_status sampleDB (some adminUser) 1 VideoStatus.pending).2.videos.find?
        (fun w => decide (w.id = 1)) =
      some { videoApproved with approval_status := VideoStatus.pending } :=
  admin_transition_graph_complete sampleDB adminUser (by decide) 1 videoApproved
    (by decide) VideoStatus.pending

/- ### C9 -/

/-- C9: a status-update request mutates at most the `approval_status` of the
targeted video: every other column of every video, every lesson and every
user are unchanged, whoever the actor is. -/
theorem update_status_frame (db : DB) (actor : Option User) (vid : Nat)
    (st : VideoStatus) :
    (update_video_status db actor vid st).2.lessons = db.lessons ∧
    (update_video_status db actor vid st).2.users = db.users ∧
    (update_video_status db actor vid st).2.videos.length = db.videos.length ∧
    ∀ p ∈ db.videos.zip (update_video_status db actor vid st).2.videos,
      videoMetaEq p.1 p.2 ∧ (¬ p.1.id = vid → p.2 = p.1) := by
  have base : ∀ p ∈ db.videos.zip db.videos,
      videoMetaEq p.1 p.2 ∧ (¬ p.1.id = vid → p.2 = p.1) := by
    intro p hp
    have h := zip_same_eq db.videos p hp
    rw [h]
    exact ⟨⟨rfl, rfl, rfl, rfl, rfl⟩, fun _ => rfl⟩
  cases hga : get_current_admin_user actor with
  | error e =>
      simp only [update_video_status, hga]
      exact ⟨trivial, trivial, trivial, base⟩
  | ok u =>
      cases hf : db.videos.find? (fun v => decide (v.id = vid)) with
      | none =>
          simp only [update_video_status, hga, hf]
          exact ⟨trivial, trivial, trivial, base⟩
      | some w =>
          simp only [update_video_status, hga, hf]
          exact ⟨trivial, trivial, updateFirst_length db.videos vid st,
            updateFirst_zip db.videos vid st⟩

/- ### Deletion helpers -/

theorem runDestroys_no_raise (destroy : String → DestroyOutcome)
    (hnr : ∀ pid m, destroy pid ≠ DestroyOutcome.raised m) (l : List Video) :
    runDestroys destroy l =
      (l.filterMap (fun v => match v.public_id with
        | none => none
        | some pid => if pid = "" then none else some pid), none) := by
  induction l with
  | nil => rfl
  | cons v vs ih =>
      cases hp : v.public_id with
      | none => simp [runDestroys, hp, List.filterMap_cons, ih]
      | some pid =>
          by_cases hpe : pid = ""
          · simp [runDestroys, hp, hpe, List.filterMap_cons, ih]
          · cases hd : destroy pid with
            | result b => simp [runDestroys, hp, hpe, hd, List.filterMap_cons, ih]
            | raised m => exact absurd hd (hnr pid m)

theorem removeFirstLesson_keeps (l : List Lesson) (i : Nat) :
    ∀ x ∈ l, ¬ x.id = i → x ∈ removeFirstLesson l i := by
  induction l with
  | nil => intro x hx; simp at hx
  | cons a as ih =>
      intro x hx hne
      unfold removeFirstLesson
      by_cases ha : a.id = i
      · rw [if_pos ha]
        rcases List.mem_cons.mp hx with h | h
        · subst h; exact absurd ha hne
        · exact h
      · rw [if_neg ha]
        rcases List.mem_cons.mp hx with h | h
        · subst h; exact List.mem_cons_self x (removeFirstLesson as i)
        · exact List.mem_cons_of_mem a (ih x h hne)

theorem removeFirstLesson_clears (l : List Lesson) (i : Nat)
    (hnd : (l.map Lesson.id).Nodup) :
    ∀ x ∈ removeFirstLesson l i, ¬ x.id = i := by
  induction l with
  | nil => intro x hx; simp [removeFirstLesson] at hx
  | cons a as ih =>
      rw [List.map_cons, List.nodup_cons] at hnd
      intro x hx
      unfold removeFirstLesson at hx
      by_cases ha : a.id = i
      · rw [if_pos ha] at hx
        intro hxi
        exact hnd.1 (ha ▸ hxi ▸ List.mem_map_of_mem Lesson.id hx)
      · rw [if_neg ha] at hx
        rcases List.mem_cons.mp hx with h | h
        · subst h; exact ha
        · exact ih hnd.2 x h

/- ### C4 -/

/-- C4 counterexample: on a lesson with two videos, a destroy stub whose
calls raise makes `delete_lesson` return a 500 with the local lesson and
video rows fully retained, and only one of the two external deletions is
ever attempted — refuting both the "exactly N attempts" and the "local rows
always deleted" parts of the claim. -/
theorem delete_lesson_raising_destroy_keeps_rows :
    (delete_lesson sampleDB (some adminUser) 1 raisingDestroy).1 =
      .error ⟨500, "Failed to delete lesson: network error"⟩ ∧
    (delete_lesson sampleDB (some adminUser) 1 raisingDestroy).2.1 = sampleDB ∧
    (delete_lesson sampleDB (some adminUser) 1 raisingDestroy).2.2 = ["pub1"] :=
  ⟨rfl, rfl, rfl⟩

/-- C4 (amended): an admin `delete_lesson` attempts one external deletion
per video of the lesson that has a truthy deletion handle, in order, and —
provided no destroy call raises an exception — always deletes the local
lesson row and all of its video rows, even when every external deletion
call reports failure in its response; a destroy call that raises instead
aborts the operation with a 500 and leaves all local rows in place. -/
theorem delete_lesson_best_effort_amended (db : DB) (u : User)
    (hu : u.role = UserRole.admin) (lid : Nat) (lesson : Lesson)
    (hfind : db.lessons.find? (fun l => decide (l.id = lid)) = some lesson)
    (hnd : (db.lessons.map Lesson.id).Nodup)
    (destroy : String → DestroyOutcome)
    (hnr : ∀ pid m, destroy pid ≠ DestroyOutcome.raised m) :
    (delete_lesson db (some u) lid destroy).1 = .ok () ∧
    (delete_lesson db (some u) lid destroy).2.1.videos =
      db.videos.filter (fun v => decide (¬ v.lesson_id = lesson.id)) ∧
    (∀ l ∈ (delete_lesson db (some u) lid destroy).2.1.lessons, ¬ l.id = lid) ∧
    (∀ l ∈ db.lessons, ¬ l.id = lid →
      l ∈ (delete_lesson db (some u) lid destroy).2.1.lessons) ∧
    (delete_lesson db (some u) lid destroy).2.2 =
      (db.videos.filter (fun v => decide (v.lesson_id = lesson.id))).filterMap
        (fun v => match v.public_id with
          | none => none
          | some pid => if pid = "" then none else some pid) := by
  have hrun := runDestroys_no_raise destroy hnr
    (db.videos.filter fun v => decide (v.lesson_id = lesson.id))
  have hgate : get_current_admin_user (some u) = .ok u := by
    simp [get_current_admin_user, hu]
  simp only [delete_lesson, hgate, hfind, hrun]
  exact ⟨trivial, trivial, removeFirstLesson_clears db.lessons lid hnd,
    fun l hl hne => removeFirstLesson_keeps db.lessons lid l hl hne, trivial⟩

/-- Witness for the amended C4: the admin deletes the sample lesson while
the host reports failure (without raising) on both deletions: both handles
are attempted and the local rows are removed. -/
theorem delete_lesson_best_effort_amended_witness :
    (delete_lesson sampleDB (some adminUser) 1 errorResultDestroy).1 = .ok () ∧
    (delete_lesson sampleDB (some adminUser) 1 errorResultDestroy).2.1.videos =
      sampleDB.videos.filter (fun v => decide (¬ v.lesson_id = lessonAlgebra.id)) ∧
    (∀ l ∈ (delete_lesson sampleDB (some adminUser) 1 errorResultDestroy).2.1.lessons,
      ¬ l.id = 1) ∧
    (∀ l ∈ sampleDB.lessons, ¬ l.id = 1 →
      l ∈ (delete_lesson sampleDB (some adminUser) 1 errorResultDestroy).2.1.lessons) ∧
    (delete_lesson sampleDB (some adminUser) 1 errorResultDestroy).2.2 =
      (sampleDB.videos.filter (fun v => decide (v.lesson_id = lessonAlgebra.id))).filterMap
        (fun v => match v.public_id with
          | none => none
          | some pid => if pid = "" then none else some pid) :=
  delete_lesson_best_effort_amended sampleDB adminUser (by decide) 1 lessonAlgebra
    (by decide) (by decide) errorResultDestroy
    (fun pid m h => DestroyOutcome.noConfusion h)

/- ### C5 -/

/-- C5 (code bug): on an installation whose `videos` table lacks the
approval column, the migration adds it with `DEFAULT 'pending'`; under
SQLite ALTER TABLE semantics every pre-existing row then reads back
`'pending'`, never NULL or the empty string, so the backfill UPDATE
(`WHERE approval_status IS NULL OR approval_status = ''`) matches no row:
a pre-existing video ends the migration at `'pending'` — invisible — and
not at `'approved'` as the claim (and the code's own comment "Set existing
videos to approved so they remain visible") requires. -/
theorem migration_leaves_preexisting_pending :
    migrateVideosTable [legacyRow] =
      [⟨7, "https://v/legacy", "English", some "pubL", 3, some "pending"⟩] ∧
    ¬ (∀ r ∈ migrateVideosTable [legacyRow],
        r.approval_status = some "approved") := by
  constructor
  · rfl
  · intro h
    have := h ⟨7, "https://v/legacy", "English", some "pubL", 3, some "pending"⟩
      (by rw [show migrateVideosTable [legacyRow] =
        [⟨7, "https://v/legacy", "English", some "pubL", 3, some "pending"⟩] from rfl]
          ; exact List.mem_singleton.mpr rfl)
    simp at this

/- ### C6 -/

/-- C6 counterexample: a multipart upload request whose declared content
type is outside the allow-list but whose declared Content-Length exceeds
the middleware ceiling is rejected by `FileSizeLimitMiddleware` with 413
(payload too large) — not with the 400 invalid-file-type error of
`validate_file_type` — so the size check is performed first, contrary to
the claim's "before any size check ... regardless of the payload size". -/
theorem oversize_bad_type_hits_middleware_first :
    (uploadRequest sampleDB (some teacherUser) "T" "C" "English" textFile
        (some (100 * 1024 * 1024 + 1)) okHost 5 6).1 =
      .httpError ⟨413, "File too large. Maximum size allowed: 100MB"⟩ ∧
    ¬ (uploadRequest sampleDB (some teacherUser) "T" "C" "English" textFile
        (some (100 * 1024 * 1024 + 1)) okHost 5 6).1 =
      .httpError ⟨400, "Invalid file type. Allowed: video/mp4, video/webm, video/quicktime"⟩ := by
  constructor
  · rfl
  · intro h
    exact absurd (by rw [show (uploadRequest sampleDB (some teacherUser) "T" "C"
        "English" textFile (some (100 * 1024 * 1024 + 1)) okHost 5 6).1 =
        UploadOutcome.httpError ⟨413, "File too large. Maximum size allowed: 100MB"⟩
        from rfl] at h; exact h) (by decide)

/-- C6 (amended): for any upload request that passes the transport-level
Content-Length ceiling (or carries no Content-Length header) from an actor
that passes the upload gate, a declared content type outside the allow-list
fails with the 400 invalid-file-type error before the handler's size check
runs and before any media-host call is made: the outcome and the unchanged
store are independent of the payload bytes and of the host's behaviour. -/
theorem bad_content_type_rejected_first (db : DB) (u : User)
    (hrole : u.role = UserRole.admin ∨ u.role = UserRole.teacher)
    (t c lg : String) (f : UploadFile)
    (hct : ¬ allowed_types.contains f.content_type = true)
    (contentLength : Option Nat)
    (hcl : ∀ n, contentLength = some n → ¬ size_limit < n)
    (host : Except String CloudinaryResult) (fl fv : Nat) :
    uploadRequest db (some u) t c lg f contentLength host fl fv =
      (.httpError ⟨400, "Invalid file type. Allowed: video/mp4, video/webm, video/quicktime"⟩,
       db) := by
  have hgate : get_current_teacher_or_admin_user (some u) = .ok u := by
    rcases hrole with h | h <;> simp [get_current_teacher_or_admin_user, h]
  have hh : handle_video_upload db (some u) t c lg f host fl fv =
      (.httpError ⟨400, "Invalid file type. Allowed: video/mp4, video/webm, video/quicktime"⟩,
       db) := by
    simp only [handle_video_upload, hgate]
    rw [if_pos hct]
  cases contentLength with
  | none => exact hh
  | some n =>
      have hn := hcl n rfl
      simp only [uploadRequest, if_neg hn]
      exact hh

/-- Witness for the amended C6: a teacher posts a disallowed `text/plain`
file with no Content-Length header while the media host is down; the
request still fails with the invalid-file-type error and the store is
untouched. -/
theorem bad_content_type_rejected_first_witness :
    uploadRequest sampleDB (some teacherUser) "T" "C" "English" textFile
      none downHost 5 6 =
      (.httpError ⟨400, "Invalid file type. Allowed: video/mp4, video/webm, video/quicktime"⟩,
       sampleDB) :=
  bad_content_type_rejected_first sampleDB teacherUser (Or.inr rfl) "T" "C" "English"
    textFile (by decide) none (fun n h => Option.noConfusion h) downHost 5 6
